import Mathlib

/-
Verification of the deep mock engine (src/index.ts).

The engine is embedded shallowly:
- JS values are the inductive `JSVal`.  A mock node created by `createMock`
  is a Proxy over a callable base mock; the proxy is represented by
  `JSVal.node id`, a reference into an explicit heap (`Heap`, a list of
  `MockNode` states, addressed by position).
- A `MockNode` carries the closure-held state of `createBaseMock`
  (`impl`, `onceQueue` are local variables of the closure and can never be
  reached through property writes) together with the call record
  (`calls`, `results`, the contents of the `mock` record object) and the
  own data properties of the target function (`props`).
- User-supplied implementation functions (closures) are referenced by an
  index into a `ClosureEnv`, keeping `JSVal` first order.
- Plain JS objects and arrays are modelled as immutable values
  (`JSVal.jobj`, `JSVal.jarr`); the engine never mutates user objects.
- The machinery of the base mock reads its record through the closure
  variable (modelled as direct access to `calls`/`results`); reads that go
  through the proxy (`handler.get`, `isMock`, `getCallInfo`) honour
  property overrides of the reserved keys, exactly as the source does.
-/

/-- A JavaScript value, restricted to the shapes the mock engine handles.
`node id` is a deep-mock proxy, `mockRecord id` the `mock` record object
of node `id`, `mockMethod name id` a bound configuration method of node
`id`, and `closure fid` a user-supplied plain function (index into a
`ClosureEnv`). -/
inductive JSVal where
  | undefined
  | jnull
  | jbool (b : Bool)
  | jnum (n : Int)
  | jstr (s : String)
  | jarr (xs : List JSVal)
  | jobj (fields : List (String × JSVal))
  | promiseResolved (v : JSVal)
  | promiseRejected (e : JSVal)
  | node (id : Nat)
  | mockRecord (id : Nat)
  | mockMethod (name : String) (id : Nat)
  | closure (fid : Nat)

/-- The JS typeof operator on modelled values. -/
def jsTypeof : JSVal → String
  | .undefined => "undefined"
  | .jnull => "object"
  | .jbool _ => "boolean"
  | .jnum _ => "number"
  | .jstr _ => "string"
  | .jarr _ => "object"
  | .jobj _ => "object"
  | .promiseResolved _ => "object"
  | .promiseRejected _ => "object"
  | .node _ => "function"
  | .mockRecord _ => "object"
  | .mockMethod _ _ => "function"
  | .closure _ => "function"

/-- Whether a value is the JS value undefined (for the `!== undefined`
test in handler.get). -/
def JSVal.isUndefined : JSVal → Bool
  | .undefined => true
  | _ => false

/-- JS truthiness (for the `||` fallbacks in getCallInfo). -/
def jsTruthy : JSVal → Bool
  | .undefined => false
  | .jnull => false
  | .jbool b => b
  | .jnum n => n != 0
  | .jstr s => s != ""
  | _ => true

/-- JS `x || y`. -/
def jsOr (x y : JSVal) : JSVal := if jsTruthy x then x else y

/-- Array.isArray. -/
def isArray : JSVal → Bool
  | .jarr _ => true
  | _ => false

/-- Length of a JS array value (`.length` on an array). -/
def jsArrLen : JSVal → Nat
  | .jarr xs => xs.length
  | _ => 0

/-- Indexing a JS array value (`a[i]`, undefined when out of range). -/
def jsElem : JSVal → Nat → JSVal
  | .jarr xs, i => (xs.get? i).getD .undefined
  | _, _ => .undefined

/-- Lookup of an own property in a property list (first binding wins;
bindings are kept unique by `insertProp`). -/
def lookupProp : List (String × JSVal) → String → Option JSVal
  | [], _ => none
  | (k1, v) :: ps, k => if k1 = k then some v else lookupProp ps k

/-- JS own-property assignment: update in place when the key exists,
append otherwise (JS preserves first-insertion order of string keys). -/
def insertProp : List (String × JSVal) → String → JSVal → List (String × JSVal)
  | [], k, v => [(k, v)]
  | (k1, w) :: ps, k, v =>
    if k1 = k then (k1, v) :: ps else (k1, w) :: insertProp ps k v

/-- Environment giving meaning to user-supplied closures: a closure index
and an argument list yield either a normal result or a thrown error. -/
abbrev ClosureEnv : Type := Nat → List JSVal → Except JSVal JSVal

/-- A behavior installable as a mock implementation: either a
user-supplied function, the engine default `() => createMock(d)`
(`freshMock d` stores the depth argument `d` the closure would pass), or
one of the sugar closures built by mockReturnValue / mockResolvedValue /
mockRejectedValue (`() => v`, `() => Promise.resolve(v)`,
`() => Promise.reject(e)`).  A mock node installed as another node's
implementation would re-enter `invoke` (in JS such cyclic configurations
can overflow the stack); that fragment is not modelled. -/
inductive Behavior where
  | callClosure (fid : Nat)
  | freshMock (d : Nat)
  | retConst (v : JSVal)
  | resolvedConst (v : JSVal)
  | rejectedConst (e : JSVal)

/-- Kind tag of a result-log entry ('return' or 'throw'). -/
inductive RKind where
  | ret
  | thr

/-- One entry of the result log: `{type, value}`. -/
structure ResultEntry where
  kind : RKind
  value : JSVal

/-- State of one mock node: `depth` is the creation depth captured by the
createMock closure; `calls`/`results` are the contents of the `mock`
record; `impl`/`onceQueue` are the closure-local variables of
createBaseMock; `props` are the own data properties of the target
function (initially the eleven assigned mock-API members). -/
structure MockNode where
  depth : Nat
  calls : List (List JSVal)
  results : List ResultEntry
  impl : Option Behavior
  onceQueue : List Behavior
  props : List (String × JSVal)

/-- The heap of materialized mock nodes, addressed by position. -/
abbrev Heap : Type := List MockNode

/-- Update one node of the heap in place (no-op on a dangling id). -/
def updateNode (h : Heap) (id : Nat) (f : MockNode → MockNode) : Heap :=
  match h[id]? with
  | some n => List.set h id (f n)
  | none => h

/-- The property names intercepted by the first two branches of
handler.get (source lines 108-123): they are read straight off the
target, never recursively mocked.  Note mockRestore is listed in the
handler although the target never defines it. -/
def reservedNames : List String :=
  ["mock", "mockImplementation", "mockImplementationOnce",
   "mockResolvedValue", "mockResolvedValueOnce",
   "mockRejectedValue", "mockRejectedValueOnce",
   "mockReturnValue", "mockReturnValueOnce",
   "mockClear", "mockReset", "mockRestore"]

/-- The own enumerable properties a freshly created base mock carries, in
assignment order (source lines 20-50): the `mock` record and the ten
configuration methods. -/
def initProps (id : Nat) : List (String × JSVal) :=
  [("mock", .mockRecord id),
   ("mockImplementation", .mockMethod "mockImplementation" id),
   ("mockImplementationOnce", .mockMethod "mockImplementationOnce" id),
   ("mockReturnValue", .mockMethod "mockReturnValue" id),
   ("mockReturnValueOnce", .mockMethod "mockReturnValueOnce" id),
   ("mockResolvedValue", .mockMethod "mockResolvedValue" id),
   ("mockResolvedValueOnce", .mockMethod "mockResolvedValueOnce" id),
   ("mockRejectedValue", .mockMethod "mockRejectedValue" id),
   ("mockRejectedValueOnce", .mockMethod "mockRejectedValueOnce" id),
   ("mockClear", .mockMethod "mockClear" id),
   ("mockReset", .mockMethod "mockReset" id)]

/-- The key list of `initProps` (independent of the node id). -/
def initKeys : List String :=
  ["mock", "mockImplementation", "mockImplementationOnce",
   "mockReturnValue", "mockReturnValueOnce",
   "mockResolvedValue", "mockResolvedValueOnce",
   "mockRejectedValue", "mockRejectedValueOnce",
   "mockClear", "mockReset"]

/-- Source line 99: the fixed recursion bound. -/
def MAX_DEPTH : Nat := 10

/-- The state of a just-allocated node of creation depth `depth` that
will live at heap position `id`: empty logs, empty one-shot queue, the
default implementation `() => createMock(depth + 1)`, and the eleven
initial properties. -/
def freshNode (depth : Nat) (id : Nat) : MockNode :=
  { depth := depth, calls := [], results := [],
    impl := some (.freshMock (depth + 1)), onceQueue := [],
    props := initProps id }

/-- createMock(depth) (source lines 97-218): past the bound it returns
undefined; otherwise it allocates a fresh node whose default
implementation is `() => createMock(depth + 1)` and returns a proxy to
it.  Allocation is the only effect; the recursive call inside the default
implementation is deferred (it sits in the `freshMock` behavior). -/
def createMock (depth : Nat) (h : Heap) : Heap × JSVal :=
  if depth > MAX_DEPTH then (h, .undefined)
  else (h ++ [freshNode depth h.length], .node h.length)

/-- handler.get (source lines 106-139): reserved names and the cached
non-undefined values are returned as stored; otherwise a nested mock is
created at depth + 1, cached under the key, and returned.  (Symbol
properties are outside the modelled key space.) -/
def proxyGet (h : Heap) (id : Nat) (k : String) : Heap × JSVal :=
  match h[id]? with
  | none => (h, .undefined)
  | some n =>
    if k ∈ reservedNames then (h, (lookupProp n.props k).getD .undefined)
    else
      match lookupProp n.props k with
      | some v =>
        if v.isUndefined then
          let c := createMock (n.depth + 1) h
          (updateNode c.1 id (fun m => { m with props := insertProp m.props k c.2 }), c.2)
        else (h, v)
      | none =>
        let c := createMock (n.depth + 1) h
        (updateNode c.1 id (fun m => { m with props := insertProp m.props k c.2 }), c.2)

/-- handler.set (source lines 142-145): store the value verbatim as an
own property of the target. -/
def setProp (h : Heap) (id : Nat) (k : String) (v : JSVal) : Heap :=
  updateNode h id (fun n => { n with props := insertProp n.props k v })

/-- Value of a list of decimal digit characters, most significant
first. -/
def digitsToNat : List Char → Nat → Nat
  | [], acc => acc
  | c :: cs, acc => digitsToNat cs (acc * 10 + (c.toNat - 48))

/-- ECMAScript array-index test for a string property key: the key is
an array index exactly when it is the canonical decimal representation
(no sign, no leading zero except the key 0 itself) of an integer n with
n below 4294967295 (2 to the 32nd minus 1); the result carries n. -/
def arrayIndexVal (s : String) : Option Nat :=
  if s.data ≠ [] ∧ s.data.all Char.isDigit ∧ (s.data = ['0'] ∨ s.data.head? ≠ some '0')
  then
    if digitsToNat s.data 0 ≤ 4294967294 then some (digitsToNat s.data 0) else none
  else none

/-- Insert one (index value, key) pair into a list sorted by ascending
index value. -/
def insertIdxSorted (p : Nat × String) : List (Nat × String) → List (Nat × String)
  | [] => [p]
  | q :: qs => if p.1 < q.1 then p :: q :: qs else q :: insertIdxSorted p qs

/-- Sort (index value, key) pairs by ascending index value. -/
def sortByIdx : List (Nat × String) → List (Nat × String)
  | [] => []
  | p :: ps => insertIdxSorted p (sortByIdx ps)

/-- The ECMAScript enumeration order of a set of own string keys given
in creation (first-insertion) order: array-index keys first, in
ascending numeric order, then the remaining string keys in creation
order. -/
def jsKeyOrder (ks : List String) : List String :=
  (sortByIdx (ks.filterMap (fun k => (arrayIndexVal k).map (fun n => (n, k))))).map
      Prod.snd ++
    ks.filter (fun k => (arrayIndexVal k).isNone)

/-- The node's own property keys in creation (first-insertion) order,
before Object.keys applies its ordering. -/
def insertionKeys (h : Heap) (id : Nat) : List String :=
  match h[id]? with
  | some n => n.props.map Prod.fst
  | none => []

/-- handler.ownKeys (source lines 148-150): Object.keys of the target,
i.e. its own enumerable string keys in ECMAScript order: array-index
keys first in ascending numeric order, then the other keys in creation
order. -/
def jsOwnKeys (h : Heap) (id : Nat) : List String :=
  jsKeyOrder (insertionKeys h id)

/-- Run a behavior on an argument list.  Only the engine default
(`freshMock`) touches the heap: it allocates the nested mock. -/
def applyBehavior (E : ClosureEnv) (b : Behavior) (args : List JSVal) (h : Heap) :
    Heap × Except JSVal JSVal :=
  match b with
  | .callClosure fid => (h, E fid args)
  | .freshMock d =>
    let c := createMock d h
    (c.1, .ok c.2)
  | .retConst v => (h, .ok v)
  | .resolvedConst v => (h, .ok (.promiseResolved v))
  | .rejectedConst e => (h, .ok (.promiseRejected e))

/-- The result of a behavior that does not depend on the heap (`none` for
the engine default, which allocates). -/
def pureApply (E : ClosureEnv) (b : Behavior) (args : List JSVal) :
    Option (Except JSVal JSVal) :=
  match b with
  | .callClosure fid => some (E fid args)
  | .freshMock _ => none
  | .retConst v => some (.ok v)
  | .resolvedConst v => some (.ok (.promiseResolved v))
  | .rejectedConst e => some (.ok (.promiseRejected e))

/-- Tag a behavior outcome for the result log. -/
def toResult : Except JSVal JSVal → ResultEntry
  | .ok v => { kind := .ret, value := v }
  | .error e => { kind := .thr, value := e }

/-- The behavior an invocation will run: head of the one-shot queue if
any, else the default implementation (`onceQueue.shift() ?? impl`). -/
def chooseBehavior (n : MockNode) : Option Behavior :=
  match n.onceQueue with
  | b :: _ => some b
  | [] => n.impl

/-- Invocation of a mock node (source lines 6-18): append the argument
list to the call log, pop the one-shot queue (falling back to the default
implementation), run the chosen behavior (undefined result when neither
exists), append `{return, v}` or `{throw, e}` to the result log, and
return or re-raise.  The argument list is logged before the behavior
runs. -/
def invoke (E : ClosureEnv) (h : Heap) (id : Nat) (args : List JSVal) :
    Heap × Except JSVal JSVal :=
  match h[id]? with
  | none => (h, .error (.jstr "TypeError: not a function"))
  | some n =>
    let n1 : MockNode := { n with calls := n.calls ++ [args] }
    let pick : Option Behavior × MockNode :=
      match n1.onceQueue with
      | b :: rest => (some b, { n1 with onceQueue := rest })
      | [] => (n1.impl, n1)
    let h2 := List.set h id pick.2
    let step : Heap × Except JSVal JSVal :=
      match pick.1 with
      | none => (h2, .ok .undefined)
      | some b => applyBehavior E b args h2
    (updateNode step.1 id
       (fun m => { m with results := m.results ++ [toResult step.2] }),
     step.2)

/-- fn.mockImplementation (source lines 22-25): replace the default
implementation. -/
def mockImplementation (h : Heap) (id : Nat) (b : Behavior) : Heap :=
  updateNode h id (fun n => { n with impl := some b })

/-- fn.mockImplementationOnce (source lines 27-30): push onto the
one-shot queue. -/
def mockImplementationOnce (h : Heap) (id : Nat) (b : Behavior) : Heap :=
  updateNode h id (fun n => { n with onceQueue := n.onceQueue ++ [b] })

/-- baseMock.mockReturnValue (source lines 174-177):
mockImplementation(() => value). -/
def mockReturnValue (h : Heap) (id : Nat) (v : JSVal) : Heap :=
  mockImplementation h id (.retConst v)

/-- baseMock.mockReturnValueOnce (source lines 179-182). -/
def mockReturnValueOnce (h : Heap) (id : Nat) (v : JSVal) : Heap :=
  mockImplementationOnce h id (.retConst v)

/-- baseMock.mockResolvedValue (source lines 184-187):
mockImplementation(() => Promise.resolve(value)). -/
def mockResolvedValue (h : Heap) (id : Nat) (v : JSVal) : Heap :=
  mockImplementation h id (.resolvedConst v)

/-- baseMock.mockResolvedValueOnce (source lines 189-192). -/
def mockResolvedValueOnce (h : Heap) (id : Nat) (v : JSVal) : Heap :=
  mockImplementationOnce h id (.resolvedConst v)

/-- baseMock.mockRejectedValue (source lines 194-197):
mockImplementation(() => Promise.reject(error)). -/
def mockRejectedValue (h : Heap) (id : Nat) (e : JSVal) : Heap :=
  mockImplementation h id (.rejectedConst e)

/-- baseMock.mockRejectedValueOnce (source lines 199-202). -/
def mockRejectedValueOnce (h : Heap) (id : Nat) (e : JSVal) : Heap :=
  mockImplementationOnce h id (.rejectedConst e)

/-- baseMock.mockClear (source lines 204-208): empty both logs, touch
nothing else. -/
def mockClear (h : Heap) (id : Nat) : Heap :=
  updateNode h id (fun n => { n with calls := [], results := [] })

/-- baseMock.mockReset as an engine node actually has it (source lines
210-214).  This assignment shadows the base mockReset of createBaseMock
(source lines 45-50): it clears the logs and reinstalls the default
nested-mock implementation, but it does not empty the one-shot queue,
whereas the shadowed base version also did `onceQueue.length = 0`. -/
def mockReset (h : Heap) (id : Nat) : Heap :=
  updateNode (mockClear h id) id
    (fun n => { n with impl := some (.freshMock (n.depth + 1)) })

/-- Walk a chain of property reads, threading the heap.  The walk stops
at a non-node value (in JS a further read on undefined would throw; the
claims only walk through nodes). -/
def walk (h : Heap) (v : JSVal) (ks : List String) : Heap × JSVal :=
  match ks, v with
  | [], _ => (h, v)
  | k :: rest, .node id =>
    let p := proxyGet h id k
    walk p.1 p.2 rest
  | _ :: _, _ => (h, v)

/-- A chain of reads starting at a fresh root mock (depth 0, empty
heap). -/
def chain (ks : List String) : Heap × JSVal :=
  walk (createMock 0 []).1 (createMock 0 []).2 ks

/-- The value of `v.mock` as isMock and getCallInfo read it: through the
proxy for a mock node (honouring overrides of the reserved key),
undefined for every other function value (plain closures and the bound
configuration methods carry no `mock` property). -/
def mockField (h : Heap) (v : JSVal) : JSVal :=
  match v with
  | .node i => (proxyGet h i "mock").2
  | _ => .undefined

/-- Render a result-log entry as the JS object `{type, value}`. -/
def resultToJS (r : ResultEntry) : JSVal :=
  .jobj [("type", .jstr (match r.kind with | .ret => "return" | .thr => "throw")),
         ("value", r.value)]

/-- Plain property read on a non-proxy value (used for `.calls`,
`.results`, `.length`): reading off undefined or null throws, objects
yield their field or undefined, the `mock` record exposes its two arrays,
and a proxy routes through handler.get (pure for the reserved keys this
is used with). -/
def jsGetField (h : Heap) (v : JSVal) (k : String) : Except JSVal JSVal :=
  match v with
  | .undefined => .error (.jstr "TypeError: Cannot read properties of undefined")
  | .jnull => .error (.jstr "TypeError: Cannot read properties of null")
  | .jobj fs => .ok ((lookupProp fs k).getD .undefined)
  | .jarr xs => .ok (if k = "length" then .jnum xs.length else .undefined)
  | .mockRecord i =>
    (match h[i]? with
     | some n =>
       .ok (if k = "calls" then .jarr (n.calls.map .jarr)
            else if k = "results" then .jarr (n.results.map resultToJS)
            else .undefined)
     | none => .ok .undefined)
  | .node i => .ok (proxyGet h i k).2
  | _ => .ok .undefined

/-- isMock (source lines 236-244): value is a function and value.mock is
an object with array-valued calls and results.  The conjunction
short-circuits left to right; reading `.calls` off a null `mock` property
throws, so the predicate itself can raise. -/
def isMock (h : Heap) (v : JSVal) : Except JSVal Bool :=
  if jsTypeof v = "function" then
    if jsTypeof (mockField h v) = "object" then
      match jsGetField h (mockField h v) "calls" with
      | .error e => .error e
      | .ok c =>
        if isArray c then
          match jsGetField h (mockField h v) "results" with
          | .error e => .error e
          | .ok r => .ok (isArray r)
        else .ok false
    else .ok false
  else .ok false

/-- The record getCallInfo returns. -/
structure CallInfo where
  callCount : Nat
  calls : JSVal
  results : JSVal
  lastCall : JSVal
  lastResult : JSVal

/-- getCallInfo (source lines 301-315): TypeError unless isMock; then the
summary, with `calls[calls.length - 1] || []` and
`results[results.length - 1] || {type: 'return', value: undefined}` as
fallbacks. -/
def getCallInfo (h : Heap) (v : JSVal) : Except JSVal CallInfo :=
  match isMock h v with
  | .error e => .error e
  | .ok false => .error (.jstr "TypeError: Argument must be a mock function")
  | .ok true =>
    match jsGetField h (mockField h v) "calls",
          jsGetField h (mockField h v) "results" with
    | .ok calls, .ok results =>
      .ok { callCount := jsArrLen calls,
            calls := calls,
            results := results,
            lastCall := jsOr (jsElem calls (jsArrLen calls - 1)) (.jarr []),
            lastResult := jsOr (jsElem results (jsArrLen results - 1))
              (.jobj [("type", .jstr "return"), ("value", .undefined)]) }
    | .error e, _ => .error e
    | _, .error e => .error e

/-- Turn a function-typed defaults value into the behavior
mockImplementation receives.  Only plain user closures are modelled as
installable implementations; installing a mock node itself would re-enter
invoke (see `Behavior`). -/
def valueBehavior : JSVal → Behavior
  | .closure fid => .callClosure fid
  | _ => .retConst (.jstr "unmodelled: non-closure function installed as implementation")

/-- One step of createMockWithDefaults (source lines 276-285): read (and
thereby materialize) the child, then branch on the two typeof tests.
When the child is function-typed but not a mock node, the source would
call an undefined mockImplementation / mockReturnValue member and throw;
that corner is surfaced as an error. -/
def installDefault (h : Heap) (root : Nat) (k : String) (v : JSVal) :
    Except JSVal Heap :=
  let p := proxyGet h root k
  if jsTypeof p.2 = "function" ∧ jsTypeof v = "function" then
    match p.2 with
    | .node i => .ok (mockImplementation p.1 i (valueBehavior v))
    | _ => .error (.jstr "TypeError: mockProp.mockImplementation is not a function")
  else if jsTypeof p.2 = "function" then
    match p.2 with
    | .node i => .ok (mockReturnValue p.1 i v)
    | _ => .error (.jstr "TypeError: mockProp.mockReturnValue is not a function")
  else .ok (setProp p.1 root k v)

/-- createMockWithDefaults (source lines 270-289): a fresh root mock,
then the defaults entries installed in order; the root proxy is
returned. -/
def createMockWithDefaults (defaults : List (String × JSVal)) :
    Except JSVal (Heap × JSVal) :=
  match (createMock 0 []).2 with
  | .node rid => do
    let hf ← defaults.foldlM
      (fun h kv => installDefault h rid kv.1 kv.2) (createMock 0 []).1
    .ok (hf, .node rid)
  | v => .ok ((createMock 0 []).1, v)

/-- The behavior createMockWithDefaults ends up installing as the child's
default implementation for a defaults entry with value v: the supplied
function itself when v is invocable, a default-return behavior yielding v
otherwise. -/
def installedBehavior (v : JSVal) : Behavior :=
  if jsTypeof v = "function" then valueBehavior v else .retConst v

/-- The outcome an invocation of a defaults-installed child produces for
a defaults value v: apply the supplied closure to the arguments when v is
a plain function, return v otherwise. -/
def defaultOutcome (E : ClosureEnv) (v : JSVal) (args : List JSVal) :
    Except JSVal JSVal :=
  match v with
  | .closure fid => E fid args
  | _ => .ok v

/-- The state createMockWithDefaults leaves behind for one defaults entry
under key k with value v: reading k on the root yields a materialized
child (a node distinct from the root, with no heap effect), whose
one-shot queue is empty and whose default implementation is the installed
behavior for v. -/
def keyInstalled (h : Heap) (k : String) (v : JSVal) : Prop :=
  ∃ i n, 0 < i ∧ proxyGet h 0 k = (h, JSVal.node i) ∧ h[i]? = some n ∧
    n.onceQueue = [] ∧ n.impl = some (installedBehavior v)

/-! ### Helper lemmas about property lists and the heap -/

theorem lookupProp_insertProp_self (l : List (String × JSVal)) (k : String) (v : JSVal) :
    lookupProp (insertProp l k v) k = some v := by
  induction l with
  | nil => simp [insertProp, lookupProp]
  | cons p ps ih =>
    obtain ⟨k1, v1⟩ := p
    by_cases hk : k1 = k
    · simp [insertProp, hk, lookupProp]
    · simp [insertProp, hk, lookupProp, ih]

theorem lookupProp_insertProp_ne (l : List (String × JSVal)) (k k2 : String) (v : JSVal)
    (h : k2 ≠ k) : lookupProp (insertProp l k v) k2 = lookupProp l k2 := by
  have hkk : ¬ (k = k2) := fun hc => h hc.symm
  induction l with
  | nil => simp [insertProp, lookupProp, hkk]
  | cons p ps ih =>
    obtain ⟨k1, v1⟩ := p
    by_cases hk : k1 = k
    · simp [insertProp, hk, lookupProp, hkk]
    · by_cases hk2 : k1 = k2
      · simp [insertProp, hk, lookupProp, hk2, h]
      · simp [insertProp, hk, lookupProp, hk2, ih]

theorem lookupProp_eq_none_iff (l : List (String × JSVal)) (k : String) :
    lookupProp l k = none ↔ k ∉ l.map Prod.fst := by
  induction l with
  | nil => simp [lookupProp]
  | cons p ps ih =>
    obtain ⟨k1, v1⟩ := p
    by_cases hk : k1 = k
    · simp [lookupProp, hk]
    · have hkk : ¬ (k = k1) := fun hc => hk hc.symm
      simp only [lookupProp, if_neg hk, List.map_cons, List.mem_cons, ih]
      tauto

theorem keys_insertProp (l : List (String × JSVal)) (k : String) (v : JSVal) :
    (insertProp l k v).map Prod.fst =
      (if k ∈ l.map Prod.fst then l.map Prod.fst else l.map Prod.fst ++ [k]) := by
  induction l with
  | nil => simp [insertProp]
  | cons p ps ih =>
    obtain ⟨k1, v1⟩ := p
    by_cases hk : k1 = k
    · simp [insertProp, hk]
    · have hkk : ¬ (k = k1) := fun hc => hk hc.symm
      simp only [insertProp, if_neg hk, List.map_cons, ih, List.mem_cons]
      by_cases hm : k ∈ ps.map Prod.fst
      · simp [hm, hkk]
      · simp [hm, hkk]

theorem updateNode_get_self (h : Heap) (id : Nat) (n : MockNode) (f : MockNode → MockNode)
    (hget : h[id]? = some n) : (updateNode h id f)[id]? = some (f n) := by
  have hlt : id < h.length := (List.getElem?_eq_some.mp hget).1
  simp [updateNode, hget, List.getElem?_set_self hlt]

theorem updateNode_get_ne (h : Heap) (id j : Nat) (f : MockNode → MockNode)
    (hne : j ≠ id) : (updateNode h id f)[j]? = h[j]? := by
  unfold updateNode
  cases hg : h[id]? with
  | none => rfl
  | some n => exact List.getElem?_set_ne (fun hc => hne (hc.symm))

theorem updateNode_length (h : Heap) (id : Nat) (f : MockNode → MockNode) :
    (updateNode h id f).length = h.length := by
  unfold updateNode
  cases hg : h[id]? with
  | none => rfl
  | some n => exact List.length_set h id (f n)

/-! ### Specification lemmas for invocation -/

theorem applyBehavior_of_pure (E : ClosureEnv) (b : Behavior) (args : List JSVal)
    (h : Heap) (r : Except JSVal JSVal) (hp : pureApply E b args = some r) :
    applyBehavior E b args h = (h, r) := by
  cases b <;> simp_all [pureApply, applyBehavior]

theorem invoke_spec_once (E : ClosureEnv) (h : Heap) (id : Nat) (n : MockNode)
    (b : Behavior) (rest : List Behavior) (args : List JSVal) (r : Except JSVal JSVal)
    (hget : h[id]? = some n) (hq : n.onceQueue = b :: rest)
    (hp : pureApply E b args = some r) :
    invoke E h id args =
      (List.set h id
        { n with calls := n.calls ++ [args], onceQueue := rest,
                 results := n.results ++ [toResult r] }, r) := by
  have hlt : id < h.length := (List.getElem?_eq_some.mp hget).1
  unfold invoke
  rw [hget]
  simp only [hq, applyBehavior_of_pure E b args _ r hp]
  rw [updateNode, List.getElem?_set_self hlt]
  dsimp only
  rw [List.set_set]

theorem invoke_spec_default (E : ClosureEnv) (h : Heap) (id : Nat) (n : MockNode)
    (d : Behavior) (args : List JSVal) (r : Except JSVal JSVal)
    (hget : h[id]? = some n) (hq : n.onceQueue = []) (hi : n.impl = some d)
    (hp : pureApply E d args = some r) :
    invoke E h id args =
      (List.set h id
        { n with calls := n.calls ++ [args],
                 results := n.results ++ [toResult r] }, r) := by
  have hlt : id < h.length := (List.getElem?_eq_some.mp hget).1
  unfold invoke
  rw [hget]
  simp only [hq, hi, applyBehavior_of_pure E d args _ r hp]
  rw [updateNode, List.getElem?_set_self hlt]
  dsimp only
  rw [List.set_set]

theorem invoke_result (E : ClosureEnv) (h : Heap) (id : Nat) (n : MockNode)
    (b : Behavior) (args : List JSVal) (r : Except JSVal JSVal)
    (hget : h[id]? = some n) (hb : chooseBehavior n = some b)
    (hp : pureApply E b args = some r) :
    (invoke E h id args).2 = r := by
  unfold chooseBehavior at hb
  cases hq : n.onceQueue with
  | cons b1 rest =>
    rw [hq] at hb
    cases hb
    rw [invoke_spec_once E h id n b rest args r hget hq hp]
  | nil =>
    rw [hq] at hb
    rw [invoke_spec_default E h id n b args r hget hq hb hp]

/-! ### Specification lemmas for property reads -/

theorem createMock_le (d : Nat) (h : Heap) (hd : ¬ d > MAX_DEPTH) :
    createMock d h = (h ++ [freshNode d h.length], .node h.length) := by
  rw [createMock, if_neg hd]

theorem createMock_gt (d : Nat) (h : Heap) (hd : d > MAX_DEPTH) :
    createMock d h = (h, .undefined) := by
  rw [createMock, if_pos hd]

theorem proxyGet_reserved (h : Heap) (id : Nat) (n : MockNode) (k : String)
    (hget : h[id]? = some n) (hk : k ∈ reservedNames) :
    proxyGet h id k = (h, (lookupProp n.props k).getD .undefined) := by
  unfold proxyGet
  rw [hget]
  dsimp only
  rw [if_pos hk]

theorem proxyGet_cached (h : Heap) (id : Nat) (n : MockNode) (k : String) (v : JSVal)
    (hget : h[id]? = some n) (hk : k ∉ reservedNames)
    (hlook : lookupProp n.props k = some v) (hv : v.isUndefined = false) :
    proxyGet h id k = (h, v) := by
  unfold proxyGet
  rw [hget]
  dsimp only
  rw [if_neg hk, hlook]
  simp [hv]

theorem proxyGet_absent (h : Heap) (id : Nat) (n : MockNode) (k : String)
    (hget : h[id]? = some n) (hk : k ∉ reservedNames)
    (hlook : lookupProp n.props k = none) :
    proxyGet h id k =
      (updateNode (createMock (n.depth + 1) h).1 id
         (fun m => { m with props := insertProp m.props k (createMock (n.depth + 1) h).2 }),
       (createMock (n.depth + 1) h).2) := by
  unfold proxyGet
  rw [hget]
  dsimp only
  rw [if_neg hk, hlook]

theorem proxyGet_stale (h : Heap) (id : Nat) (n : MockNode) (k : String)
    (hget : h[id]? = some n) (hk : k ∉ reservedNames)
    (hlook : lookupProp n.props k = some .undefined) :
    proxyGet h id k =
      (updateNode (createMock (n.depth + 1) h).1 id
         (fun m => { m with props := insertProp m.props k (createMock (n.depth + 1) h).2 }),
       (createMock (n.depth + 1) h).2) := by
  unfold proxyGet
  rw [hget]
  dsimp only
  rw [if_neg hk, hlook]
  simp [JSVal.isUndefined]

theorem proxyGet_materialize (h : Heap) (id : Nat) (n : MockNode) (k : String)
    (hget : h[id]? = some n) (hk : k ∉ reservedNames)
    (hlook : lookupProp n.props k = none) (hd : ¬ (n.depth + 1 > MAX_DEPTH)) :
    proxyGet h id k =
      ((h ++ [freshNode (n.depth + 1) h.length]).set id
         { n with props := insertProp n.props k (.node h.length) },
       .node h.length) := by
  have hlt : id < h.length := (List.getElem?_eq_some.mp hget).1
  have happ : (h ++ [freshNode (n.depth + 1) h.length])[id]? = some n := by
    rw [List.getElem?_append, if_pos hlt, hget]
  rw [proxyGet_absent h id n k hget hk hlook, createMock_le _ _ hd]
  dsimp only
  rw [updateNode, happ]

theorem proxyGet_past_bound (h : Heap) (id : Nat) (n : MockNode) (k : String)
    (hget : h[id]? = some n) (hk : k ∉ reservedNames)
    (hlook : lookupProp n.props k = none) (hd : n.depth + 1 > MAX_DEPTH) :
    proxyGet h id k =
      (List.set h id { n with props := insertProp n.props k .undefined }, .undefined) := by
  rw [proxyGet_absent h id n k hget hk hlook, createMock_gt _ _ hd]
  dsimp only
  rw [updateNode, hget]

theorem initKeys_mem_reserved : ∀ s ∈ initKeys, s ∈ reservedNames := by decide

theorem lookupProp_initProps (id : Nat) (k : String) (hk : k ∉ reservedNames) :
    lookupProp (initProps id) k = none := by
  rw [lookupProp_eq_none_iff]
  intro hm
  exact hk (initKeys_mem_reserved k hm)

theorem walk_fresh (ks : List String) :
    ∀ (h : Heap) (id : Nat) (n : MockNode),
    h[id]? = some n → n.props = initProps id → n.depth + ks.length ≤ MAX_DEPTH →
    (∀ k ∈ ks, k ∉ reservedNames) →
    ∃ h2 id2 n2, walk h (JSVal.node id) ks = (h2, .node id2) ∧ h2[id2]? = some n2 ∧
      n2.props = initProps id2 ∧ n2.depth = n.depth + ks.length := by
  induction ks with
  | nil =>
    intro h id n hget hprops hd hres
    exact ⟨h, id, n, rfl, hget, hprops, by simp⟩
  | cons k rest ih =>
    intro h id n hget hprops hd hres
    have hkres : k ∉ reservedNames := hres k (List.mem_cons_self k rest)
    have hlt : id < h.length := (List.getElem?_eq_some.mp hget).1
    have hdep : ¬ (n.depth + 1 > MAX_DEPTH) := by
      simp only [List.length_cons] at hd; omega
    have hlook : lookupProp n.props k = none := by
      rw [hprops]; exact lookupProp_initProps id k hkres
    have hpg := proxyGet_materialize h id n k hget hkres hlook hdep
    have hchild : ((h ++ [freshNode (n.depth + 1) h.length]).set id
        { n with props := insertProp n.props k (.node h.length) })[h.length]? =
        some (freshNode (n.depth + 1) h.length) := by
      rw [List.getElem?_set_ne (by omega : id ≠ List.length h),
        List.getElem?_concat_length]
    have hrec := ih ((h ++ [freshNode (n.depth + 1) h.length]).set id
        { n with props := insertProp n.props k (.node h.length) }) h.length
        (freshNode (n.depth + 1) h.length) hchild rfl
        (by simp only [freshNode, List.length_cons] at hd ⊢; omega)
        (fun k2 hk2 => hres k2 (List.mem_cons_of_mem k hk2))
    obtain ⟨h2, id2, n2, hwalk, hget2, hprops2, hdepth2⟩ := hrec
    refine ⟨h2, id2, n2, ?_, hget2, hprops2, ?_⟩
    · rw [walk, hpg]
      exact hwalk
    · rw [hdepth2]
      simp only [freshNode, List.length_cons]
      omega

/-! ### Claim C1 -/

/-- Claim C1: starting from a root mock created by createMock, every chain
of up to MAX_DEPTH (= 10) non-reserved property reads yields a
materialized mock node whose depth equals the number of reads, and once
the chain has reached depth 10, one further property read yields the
undefined terminal value (proxyGet is total: it neither raises nor
recurses further). -/
theorem claim1_depth_bound (ks : List String) (hlen : ks.length ≤ MAX_DEPTH)
    (hres : ∀ k ∈ ks, k ∉ reservedNames) :
    ∃ id n, (chain ks).2 = JSVal.node id ∧ (chain ks).1[id]? = some n ∧
      n.depth = ks.length ∧
      (ks.length = MAX_DEPTH → ∀ k2, k2 ∉ reservedNames →
        (proxyGet (chain ks).1 id k2).2 = JSVal.undefined) := by
  obtain ⟨h2, id2, n2, hwalk, hget2, hprops2, hdepth2⟩ :=
    walk_fresh ks (createMock 0 []).1 0 (freshNode 0 0) rfl rfl
      (by simpa [freshNode] using hlen) hres
  have hchain : chain ks = (h2, JSVal.node id2) := by
    rw [chain]
    exact hwalk
  refine ⟨id2, n2, ?_, ?_, ?_, ?_⟩
  · rw [hchain]
  · rw [hchain]
    exact hget2
  · rw [hdepth2]
    simp [freshNode]
  · intro hmax k2 hk2
    rw [hchain]
    dsimp only
    have hlook : lookupProp n2.props k2 = none := by
      rw [hprops2]
      exact lookupProp_initProps id2 k2 hk2
    have hd2 : n2.depth + 1 > MAX_DEPTH := by
      rw [hdepth2, hmax]
      simp [freshNode, MAX_DEPTH]
    rw [proxyGet_past_bound h2 id2 n2 k2 hget2 hk2 hlook hd2]

/-- Witness for claim C1 at the concrete chain of ten reads of key a. -/
theorem claim1_depth_bound_witness :
    (List.replicate 10 "a").length ≤ MAX_DEPTH ∧
    (∃ id n, (chain (List.replicate 10 "a")).2 = JSVal.node id ∧
      (chain (List.replicate 10 "a")).1[id]? = some n ∧
      n.depth = (List.replicate 10 "a").length ∧
      ((List.replicate 10 "a").length = MAX_DEPTH → ∀ k2, k2 ∉ reservedNames →
        (proxyGet (chain (List.replicate 10 "a")).1 id k2).2 = JSVal.undefined)) :=
  ⟨by decide, claim1_depth_bound (List.replicate 10 "a") (by decide) (by decide)⟩

/-! ### Claim C4 -/

theorem proxyGet_rematerialize_stable (h : Heap) (id : Nat) (n : MockNode) (k : String)
    (i : Nat) (hget : h[id]? = some n) (hk : k ∉ reservedNames)
    (hmat : proxyGet h id k =
      (updateNode (createMock (n.depth + 1) h).1 id
         (fun m => { m with props := insertProp m.props k (createMock (n.depth + 1) h).2 }),
       (createMock (n.depth + 1) h).2))
    (hfirst : (proxyGet h id k).2 = JSVal.node i) :
    (proxyGet (proxyGet h id k).1 id k).2 = JSVal.node i := by
  have hlt : id < h.length := (List.getElem?_eq_some.mp hget).1
  by_cases hd : n.depth + 1 > MAX_DEPTH
  · rw [hmat, createMock_gt _ _ hd] at hfirst
    exact absurd hfirst (by simp)
  · rw [createMock_le _ _ hd] at hmat
    dsimp only at hmat
    rw [hmat] at hfirst ⊢
    dsimp only at hfirst ⊢
    have happ : (h ++ [freshNode (n.depth + 1) h.length])[id]? = some n := by
      rw [List.getElem?_append, if_pos hlt, hget]
    have hup := updateNode_get_self (h ++ [freshNode (n.depth + 1) h.length]) id n
      (fun m => { m with props := insertProp m.props k (JSVal.node h.length) }) happ
    rw [proxyGet_cached _ id _ k (JSVal.node h.length) hup hk
      (lookupProp_insertProp_self n.props k (JSVal.node h.length)) rfl]
    exact hfirst

/-- Claim C4: on any node, once a property read of a key yields a
materialized child node, an immediately following read of the same key
(no intervening write) yields the identical child: the same heap
reference, not merely an equivalent node. -/
theorem claim4_referential_stability (h : Heap) (id : Nat) (k : String) (i : Nat)
    (hfirst : (proxyGet h id k).2 = JSVal.node i) :
    (proxyGet (proxyGet h id k).1 id k).2 = JSVal.node i := by
  cases hg : h[id]? with
  | none =>
    unfold proxyGet at hfirst
    rw [hg] at hfirst
    exact absurd hfirst (by simp)
  | some n =>
    by_cases hk : k ∈ reservedNames
    · have h1 := proxyGet_reserved h id n k hg hk
      rw [h1] at hfirst ⊢
      dsimp only
      rw [proxyGet_reserved h id n k hg hk]
      exact hfirst
    · cases hl : lookupProp n.props k with
      | some v =>
        by_cases hv : v.isUndefined = true
        · have hveq : v = JSVal.undefined := by
            cases v <;> simp [JSVal.isUndefined] at hv ⊢
          subst hveq
          exact proxyGet_rematerialize_stable h id n k i hg hk
            (proxyGet_stale h id n k hg hk hl) hfirst
        · have h1 := proxyGet_cached h id n k v hg hk hl (by simpa using hv)
          rw [h1] at hfirst ⊢
          dsimp only
          rw [proxyGet_cached h id n k v hg hk hl (by simpa using hv)]
          exact hfirst
      | none =>
        exact proxyGet_rematerialize_stable h id n k i hg hk
          (proxyGet_absent h id n k hg hk hl) hfirst

/-- Witness for claim C4: the first read of key a on a fresh root
materializes node 1; the theorem then yields the second read. -/
theorem claim4_referential_stability_witness :
    (proxyGet (createMock 0 []).1 0 "a").2 = JSVal.node 1 ∧
    (proxyGet (proxyGet (createMock 0 []).1 0 "a").1 0 "a").2 = JSVal.node 1 :=
  ⟨rfl, claim4_referential_stability (createMock 0 []).1 0 "a" 1 rfl⟩

/-! ### Claim C3 -/

/-- Claim C3: with one-shot behaviors b1 then b2 queued and a default
behavior d configured, the next two invocations produce the results of b1
and b2 in FIFO order, the third produces the result of d, and afterwards
the queue is empty while the default is still installed, so every further
invocation keeps falling back to d until a new one-shot entry is
queued. -/
theorem claim3_oneshot_fifo (E : ClosureEnv) (h : Heap) (id : Nat) (n : MockNode)
    (b1 b2 d : Behavior) (a1 a2 a3 : List JSVal) (r1 r2 r3 : Except JSVal JSVal)
    (hget : h[id]? = some n) (hq : n.onceQueue = [b1, b2]) (hi : n.impl = some d)
    (hp1 : pureApply E b1 a1 = some r1) (hp2 : pureApply E b2 a2 = some r2)
    (hp3 : pureApply E d a3 = some r3) :
    (invoke E h id a1).2 = r1 ∧
    (invoke E (invoke E h id a1).1 id a2).2 = r2 ∧
    (invoke E (invoke E (invoke E h id a1).1 id a2).1 id a3).2 = r3 ∧
    ∃ n3, (invoke E (invoke E (invoke E h id a1).1 id a2).1 id a3).1[id]? = some n3 ∧
      n3.onceQueue = [] ∧ n3.impl = some d := by
  have hlt : id < h.length := (List.getElem?_eq_some.mp hget).1
  have e1 := invoke_spec_once E h id n b1 [b2] a1 r1 hget hq hp1
  have hget1 : (List.set h id { n with calls := n.calls ++ [a1], onceQueue := [b2], results := n.results ++ [toResult r1] })[id]? = some { n with calls := n.calls ++ [a1], onceQueue := [b2], results := n.results ++ [toResult r1] } :=
    List.getElem?_set_self hlt
  have e2 := invoke_spec_once E _ id _ b2 [] a2 r2 hget1 rfl hp2
  have hlt2 : id < (List.set h id { n with calls := n.calls ++ [a1], onceQueue := [b2], results := n.results ++ [toResult r1] }).length := by
    rw [List.length_set]
    exact hlt
  have hget2 : (List.set (List.set h id { n with calls := n.calls ++ [a1], onceQueue := [b2], results := n.results ++ [toResult r1] }) id { n with calls := (n.calls ++ [a1]) ++ [a2], onceQueue := [], results := (n.results ++ [toResult r1]) ++ [toResult r2] })[id]? = some { n with calls := (n.calls ++ [a1]) ++ [a2], onceQueue := [], results := (n.results ++ [toResult r1]) ++ [toResult r2] } :=
    List.getElem?_set_self hlt2
  have e3 := invoke_spec_default E _ id _ d a3 r3 hget2 rfl hi hp3
  have hlt3 : id < (List.set (List.set h id { n with calls := n.calls ++ [a1], onceQueue := [b2], results := n.results ++ [toResult r1] }) id { n with calls := (n.calls ++ [a1]) ++ [a2], onceQueue := [], results := (n.results ++ [toResult r1]) ++ [toResult r2] }).length := by
    rw [List.length_set, List.length_set]
    exact hlt
  refine ⟨?_, ?_, ?_, ?_⟩
  · rw [e1]
  · rw [e1]
    dsimp only
    rw [e2]
  · rw [e1]
    dsimp only
    rw [e2]
    dsimp only
    rw [e3]
  · rw [e1]
    dsimp only
    rw [e2]
    dsimp only
    rw [e3]
    dsimp only
    exact ⟨_, List.getElem?_set_self hlt3, rfl, hi⟩

/-- Witness for claim C3 at a concrete scenario: one-shots returning the
strings b1 and b2 over a default returning d. -/
theorem claim3_oneshot_fifo_witness :
    (invoke (fun _ _ => Except.ok JSVal.undefined)
        (mockReturnValueOnce (mockReturnValueOnce (mockReturnValue
          (createMock 0 []).1 0 (JSVal.jstr "d")) 0 (JSVal.jstr "b1")) 0
          (JSVal.jstr "b2")) 0 []).2 = Except.ok (JSVal.jstr "b1") ∧
    (invoke (fun _ _ => Except.ok JSVal.undefined)
        (invoke (fun _ _ => Except.ok JSVal.undefined)
          (mockReturnValueOnce (mockReturnValueOnce (mockReturnValue
            (createMock 0 []).1 0 (JSVal.jstr "d")) 0 (JSVal.jstr "b1")) 0
            (JSVal.jstr "b2")) 0 []).1 0 []).2 = Except.ok (JSVal.jstr "b2") ∧
    (invoke (fun _ _ => Except.ok JSVal.undefined)
        (invoke (fun _ _ => Except.ok JSVal.undefined)
          (invoke (fun _ _ => Except.ok JSVal.undefined)
            (mockReturnValueOnce (mockReturnValueOnce (mockReturnValue
              (createMock 0 []).1 0 (JSVal.jstr "d")) 0 (JSVal.jstr "b1")) 0
              (JSVal.jstr "b2")) 0 []).1 0 []).1 0 []).2 = Except.ok (JSVal.jstr "d") ∧
    ∃ n3, (invoke (fun _ _ => Except.ok JSVal.undefined)
        (invoke (fun _ _ => Except.ok JSVal.undefined)
          (invoke (fun _ _ => Except.ok JSVal.undefined)
            (mockReturnValueOnce (mockReturnValueOnce (mockReturnValue
              (createMock 0 []).1 0 (JSVal.jstr "d")) 0 (JSVal.jstr "b1")) 0
              (JSVal.jstr "b2")) 0 []).1 0 []).1 0 []).1[0]? = some n3 ∧
      n3.onceQueue = [] ∧ n3.impl = some (Behavior.retConst (JSVal.jstr "d")) :=
  claim3_oneshot_fifo (fun _ _ => Except.ok JSVal.undefined) _ 0 _
    (Behavior.retConst (JSVal.jstr "b1")) (Behavior.retConst (JSVal.jstr "b2"))
    (Behavior.retConst (JSVal.jstr "d")) [] [] []
    (Except.ok (JSVal.jstr "b1")) (Except.ok (JSVal.jstr "b2"))
    (Except.ok (JSVal.jstr "d")) rfl rfl rfl rfl rfl rfl

/-! ### Claim C5 -/

/-- Claim C5: when the chosen behavior (head of the one-shot queue, else
the default implementation) raises an error e, the invocation appends the
argument list to the call log, appends the entry with kind throw and the
very same value e to the result log, and re-raises exactly e (no
wrapping: the propagated error is the value the behavior raised).  The
recorder adds no failure of its own: `invoke` is total and, as the
statement shows, the outcome is exactly the behavior's outcome. -/
theorem claim5_throw_propagation (E : ClosureEnv) (h : Heap) (id : Nat) (n : MockNode)
    (b : Behavior) (args : List JSVal) (e : JSVal)
    (hget : h[id]? = some n) (hb : chooseBehavior n = some b)
    (hp : pureApply E b args = some (Except.error e)) :
    (invoke E h id args).2 = Except.error e ∧
    ∃ n2, (invoke E h id args).1[id]? = some n2 ∧
      n2.calls = n.calls ++ [args] ∧
      n2.results = n.results ++ [{ kind := RKind.thr, value := e }] := by
  have hlt : id < h.length := (List.getElem?_eq_some.mp hget).1
  unfold chooseBehavior at hb
  cases hq : n.onceQueue with
  | cons b1 rest =>
    rw [hq] at hb
    cases hb
    rw [invoke_spec_once E h id n b rest args (Except.error e) hget hq hp]
    exact ⟨rfl, _, List.getElem?_set_self hlt, rfl, rfl⟩
  | nil =>
    rw [hq] at hb
    rw [invoke_spec_default E h id n b args (Except.error e) hget hq hb hp]
    exact ⟨rfl, _, List.getElem?_set_self hlt, rfl, rfl⟩

/-- Witness for claim C5: a one-shot user closure that throws the string
boom; the invocation logs the throw and re-raises that same value. -/
theorem claim5_throw_propagation_witness :
    (invoke (fun _ _ => Except.error (JSVal.jstr "boom"))
        (mockImplementationOnce (createMock 0 []).1 0 (Behavior.callClosure 0))
        0 [JSVal.jnum 1]).2 = Except.error (JSVal.jstr "boom") ∧
    ∃ n2, (invoke (fun _ _ => Except.error (JSVal.jstr "boom"))
        (mockImplementationOnce (createMock 0 []).1 0 (Behavior.callClosure 0))
        0 [JSVal.jnum 1]).1[0]? = some n2 ∧
      n2.calls = [] ++ [[JSVal.jnum 1]] ∧
      n2.results = [] ++ [{ kind := RKind.thr, value := JSVal.jstr "boom" }] :=
  claim5_throw_propagation (fun _ _ => Except.error (JSVal.jstr "boom"))
    (mockImplementationOnce (createMock 0 []).1 0 (Behavior.callClosure 0)) 0 _
    (Behavior.callClosure 0) [JSVal.jnum 1] (JSVal.jstr "boom") rfl rfl rfl

/-! ### Claim C8 -/

/-- Claim C8: mockClear empties the call log and the result log but
leaves the default implementation, the one-shot queue, and the stored
properties untouched, so an invocation right after clear still produces
the previously configured behavior's result. -/
theorem claim8_clear_preserves_behavior (E : ClosureEnv) (h : Heap) (id : Nat)
    (n : MockNode) (args : List JSVal) (b : Behavior) (r : Except JSVal JSVal)
    (hget : h[id]? = some n) (hb : chooseBehavior n = some b)
    (hp : pureApply E b args = some r) :
    ∃ n2, (mockClear h id)[id]? = some n2 ∧ n2.calls = [] ∧ n2.results = [] ∧
      n2.impl = n.impl ∧ n2.onceQueue = n.onceQueue ∧ n2.props = n.props ∧
      (invoke E (mockClear h id) id args).2 = r := by
  have hup : (mockClear h id)[id]? = some { n with calls := [], results := [] } := by
    unfold mockClear
    exact updateNode_get_self h id n _ hget
  exact ⟨_, hup, rfl, rfl, rfl, rfl, rfl,
    invoke_result E _ id _ b args r hup hb hp⟩

/-- Witness for claim C8: a mock configured to return the string v and
already invoked once is cleared; the logs are empty and the next
invocation still returns v. -/
theorem claim8_clear_preserves_behavior_witness :
    ∃ n2, (mockClear (invoke (fun _ _ => Except.ok JSVal.undefined)
        (mockReturnValue (createMock 0 []).1 0 (JSVal.jstr "v")) 0 []).1 0)[0]? =
        some n2 ∧
      n2.calls = [] ∧ n2.results = [] ∧
      n2.impl = some (Behavior.retConst (JSVal.jstr "v")) ∧ n2.onceQueue = [] ∧
      n2.props = initProps 0 ∧
      (invoke (fun _ _ => Except.ok JSVal.undefined)
        (mockClear (invoke (fun _ _ => Except.ok JSVal.undefined)
          (mockReturnValue (createMock 0 []).1 0 (JSVal.jstr "v")) 0 []).1 0)
        0 []).2 = Except.ok (JSVal.jstr "v") :=
  claim8_clear_preserves_behavior (fun _ _ => Except.ok JSVal.undefined)
    (invoke (fun _ _ => Except.ok JSVal.undefined)
      (mockReturnValue (createMock 0 []).1 0 (JSVal.jstr "v")) 0 []).1 0 _ []
    (Behavior.retConst (JSVal.jstr "v")) (Except.ok (JSVal.jstr "v")) rfl rfl rfl

/-! ### Claim C2 -/

/-- Claim C2 is violated by the code: on an engine-created node the
mockReset assigned at source lines 210-214 shadows the base mockReset of
lines 45-50 and never empties the one-shot queue.  Concretely: queue one
one-shot behavior returning 1, call mockReset, then invoke.  The claim
says the one-shot queued before reset is never consumed after reset (the
invocation should produce the restored default, a fresh nested mock);
the code instead still holds the one-shot after reset and the invocation
returns 1. -/
theorem claim2_reset_keeps_once_queue :
    (∃ n, (mockReset (mockImplementationOnce (createMock 0 []).1 0
        (Behavior.retConst (JSVal.jnum 1))) 0)[0]? = some n ∧
      n.onceQueue = [Behavior.retConst (JSVal.jnum 1)] ∧
      n.impl = some (Behavior.freshMock 1) ∧ n.calls = [] ∧ n.results = []) ∧
    (invoke (fun _ _ => Except.ok JSVal.undefined)
      (mockReset (mockImplementationOnce (createMock 0 []).1 0
        (Behavior.retConst (JSVal.jnum 1))) 0) 0 []).2 = Except.ok (JSVal.jnum 1) :=
  ⟨⟨_, rfl, rfl, rfl, rfl, rfl⟩, rfl⟩

/-! ### Claim C6 -/

/-- Counterexample to claim C6: the claim includes v = undefined, but
handler.get distinguishes cached values only by `!== undefined`, so after
writing undefined to key a on a fresh root, the next read does not return
undefined verbatim: it materializes and returns a fresh child node. -/
theorem claim6_write_undefined_cex :
    (proxyGet (setProp (createMock 0 []).1 0 "a" JSVal.undefined) 0 "a").2 =
      JSVal.node 1 ∧ JSVal.node 1 ≠ JSVal.undefined :=
  ⟨rfl, fun hc => JSVal.noConfusion hc⟩

/-- Claim C6 as amended: for every node, every key, and every defined
(non-undefined) value v, a read of the key right after writing v returns
v verbatim, in preference to any materialized child; writing undefined
instead leaves the key indistinguishable from unset, so the next read
materializes a fresh child (the counterexample above). -/
theorem claim6_write_then_read (h : Heap) (id : Nat) (k : String) (v : JSVal)
    (n : MockNode) (hget : h[id]? = some n) (hv : v.isUndefined = false) :
    (proxyGet (setProp h id k v) id k).2 = v := by
  have hup : (setProp h id k v)[id]? = some { n with props := insertProp n.props k v } := by
    unfold setProp
    exact updateNode_get_self h id n _ hget
  by_cases hk : k ∈ reservedNames
  · rw [proxyGet_reserved _ id _ k hup hk, lookupProp_insertProp_self]
    rfl
  · rw [proxyGet_cached _ id _ k v hup hk (lookupProp_insertProp_self n.props k v) hv]

/-- Witness for claim C6 as amended: writing 5 under key x on a fresh
root, then reading x, yields 5. -/
theorem claim6_write_then_read_witness :
    (proxyGet (setProp (createMock 0 []).1 0 "x" (JSVal.jnum 5)) 0 "x").2 =
      JSVal.jnum 5 :=
  claim6_write_then_read (createMock 0 []).1 0 "x" (JSVal.jnum 5) _ rfl rfl

/-! ### Claim C7 -/

theorem lookupProp_some_mem (l : List (String × JSVal)) (k : String) (v : JSVal)
    (h : lookupProp l k = some v) : k ∈ l.map Prod.fst := by
  by_contra hnm
  rw [(lookupProp_eq_none_iff l k).mpr hnm] at h
  cases h

theorem insertionKeys_after_materialize (h : Heap) (id : Nat) (n : MockNode) (k : String)
    (hget : h[id]? = some n) :
    insertionKeys (updateNode (createMock (n.depth + 1) h).1 id
      (fun m => { m with props := insertProp m.props k (createMock (n.depth + 1) h).2 })) id =
      (insertProp n.props k (createMock (n.depth + 1) h).2).map Prod.fst := by
  have hlt : id < h.length := (List.getElem?_eq_some.mp hget).1
  by_cases hd : n.depth + 1 > MAX_DEPTH
  · rw [createMock_gt _ _ hd]
    dsimp only
    unfold insertionKeys
    rw [updateNode_get_self h id n _ hget]
  · rw [createMock_le _ _ hd]
    dsimp only
    have happ : (h ++ [freshNode (n.depth + 1) h.length])[id]? = some n := by
      rw [List.getElem?_append, if_pos hlt, hget]
    unfold insertionKeys
    rw [updateNode_get_self _ id n _ happ]

/-- Counterexample to claim C7: a freshly created mock with no prior
accesses and no writes does not enumerate an empty key set; it already
enumerates the eleven reserved mock-API keys of the base mock (the
ownKeys trap returns Object.keys of the target function, whose own
enumerable properties are exactly those eleven). -/
theorem claim7_enumeration_cex :
    jsOwnKeys (createMock 0 []).1 0 ≠ [] ∧
    "mock" ∈ jsOwnKeys (createMock 0 []).1 0 ∧
    "mockClear" ∈ jsOwnKeys (createMock 0 []).1 0 :=
  ⟨by decide, by decide, by decide⟩

/-- Claim C7 as amended: enumeration exposes the node's own property
keys in the order Object.keys uses (array-index keys first in ascending
numeric order, then the remaining keys in creation order).  A fresh mock
enumerates exactly the eleven built-in mock-API keys, not none as the
claim said; thereafter the creation-ordered key set grows by exactly the
keys added by access-driven materialization (non-reserved reads of
absent keys, including depth-bounded reads caching undefined) or by
explicit writes, enumeration being the Object.keys ordering of that set,
and reads of reserved or already-present keys change nothing.  In
particular, writing the array-index key 0 on a fresh root enumerates it
first, ahead of the built-in keys. -/
theorem claim7_ownkeys :
    jsOwnKeys (createMock 0 []).1 0 = initKeys ∧
    (∀ (h : Heap) (id : Nat) (k : String) (n : MockNode), h[id]? = some n →
      insertionKeys (proxyGet h id k).1 id =
        (if k ∈ reservedNames ∨ k ∈ insertionKeys h id then insertionKeys h id
         else insertionKeys h id ++ [k]) ∧
      jsOwnKeys (proxyGet h id k).1 id =
        (if k ∈ reservedNames ∨ k ∈ insertionKeys h id then jsOwnKeys h id
         else jsKeyOrder (insertionKeys h id ++ [k]))) ∧
    (∀ (h : Heap) (id : Nat) (k : String) (v : JSVal) (n : MockNode), h[id]? = some n →
      insertionKeys (setProp h id k v) id =
        (if k ∈ insertionKeys h id then insertionKeys h id
         else insertionKeys h id ++ [k]) ∧
      jsOwnKeys (setProp h id k v) id =
        (if k ∈ insertionKeys h id then jsOwnKeys h id
         else jsKeyOrder (insertionKeys h id ++ [k]))) ∧
    jsOwnKeys (setProp (createMock 0 []).1 0 "0" (JSVal.jnum 1)) 0 = "0" :: initKeys := by
  refine ⟨by decide, ?_, ?_, by decide⟩
  · intro h id k n hget
    have hkeys : insertionKeys h id = n.props.map Prod.fst := by
      unfold insertionKeys
      rw [hget]
    have hmain : insertionKeys (proxyGet h id k).1 id =
        (if k ∈ reservedNames ∨ k ∈ insertionKeys h id then insertionKeys h id
         else insertionKeys h id ++ [k]) := by
      by_cases hk : k ∈ reservedNames
      · rw [proxyGet_reserved h id n k hget hk]
        dsimp only
        rw [if_pos (Or.inl hk)]
      · cases hl : lookupProp n.props k with
        | some v =>
          have hmem : k ∈ insertionKeys h id := by
            rw [hkeys]
            exact lookupProp_some_mem n.props k v hl
          by_cases hv : v.isUndefined = true
          · have hveq : v = JSVal.undefined := by
              cases v <;> simp [JSVal.isUndefined] at hv ⊢
            subst hveq
            rw [proxyGet_stale h id n k hget hk hl]
            dsimp only
            rw [insertionKeys_after_materialize h id n k hget, keys_insertProp,
              if_pos (hkeys ▸ hmem), if_pos (Or.inr hmem), hkeys]
          · rw [proxyGet_cached h id n k v hget hk hl (by simpa using hv)]
            dsimp only
            rw [if_pos (Or.inr hmem)]
        | none =>
          have hnm : k ∉ insertionKeys h id := by
            rw [hkeys]
            exact (lookupProp_eq_none_iff n.props k).mp hl
          rw [proxyGet_absent h id n k hget hk hl]
          dsimp only
          rw [insertionKeys_after_materialize h id n k hget, keys_insertProp,
            if_neg (hkeys ▸ hnm), if_neg (by
              intro hor
              cases hor with
              | inl hc => exact hk hc
              | inr hc => exact hnm hc), hkeys]
    refine ⟨hmain, ?_⟩
    unfold jsOwnKeys
    rw [hmain]
    by_cases hc : k ∈ reservedNames ∨ k ∈ insertionKeys h id
    · rw [if_pos hc, if_pos hc]
    · rw [if_neg hc, if_neg hc]
  · intro h id k v n hget
    have hkeys : insertionKeys h id = n.props.map Prod.fst := by
      unfold insertionKeys
      rw [hget]
    have hup : (setProp h id k v)[id]? = some { n with props := insertProp n.props k v } := by
      unfold setProp
      exact updateNode_get_self h id n _ hget
    have hmain : insertionKeys (setProp h id k v) id =
        (if k ∈ insertionKeys h id then insertionKeys h id
         else insertionKeys h id ++ [k]) := by
      have hik : insertionKeys (setProp h id k v) id = (insertProp n.props k v).map Prod.fst := by
        unfold insertionKeys
        rw [hup]
      rw [hik, keys_insertProp, hkeys]
    refine ⟨hmain, ?_⟩
    unfold jsOwnKeys
    rw [hmain]
    by_cases hc : k ∈ insertionKeys h id
    · rw [if_pos hc, if_pos hc]
    · rw [if_neg hc, if_neg hc]

/-- Witness for claim C7 at concrete inputs: a fresh root enumerates the
eleven built-in keys; reading the absent key a appends it to the
creation order; writing the absent array-index key 0 appends it to the
creation order while enumeration lists it first. -/
theorem claim7_ownkeys_witness :
    jsOwnKeys (createMock 0 []).1 0 = initKeys ∧
    (insertionKeys (proxyGet (createMock 0 []).1 0 "a").1 0 =
      (if ("a" ∈ reservedNames ∨ "a" ∈ insertionKeys (createMock 0 []).1 0) then
        insertionKeys (createMock 0 []).1 0
       else insertionKeys (createMock 0 []).1 0 ++ ["a"]) ∧
     jsOwnKeys (proxyGet (createMock 0 []).1 0 "a").1 0 =
      (if ("a" ∈ reservedNames ∨ "a" ∈ insertionKeys (createMock 0 []).1 0) then
        jsOwnKeys (createMock 0 []).1 0
       else jsKeyOrder (insertionKeys (createMock 0 []).1 0 ++ ["a"]))) ∧
    (insertionKeys (setProp (createMock 0 []).1 0 "0" (JSVal.jnum 7)) 0 =
      (if "0" ∈ insertionKeys (createMock 0 []).1 0 then
        insertionKeys (createMock 0 []).1 0
       else insertionKeys (createMock 0 []).1 0 ++ ["0"]) ∧
     jsOwnKeys (setProp (createMock 0 []).1 0 "0" (JSVal.jnum 7)) 0 =
      (if "0" ∈ insertionKeys (createMock 0 []).1 0 then
        jsOwnKeys (createMock 0 []).1 0
       else jsKeyOrder (insertionKeys (createMock 0 []).1 0 ++ ["0"]))) ∧
    jsOwnKeys (setProp (createMock 0 []).1 0 "0" (JSVal.jnum 1)) 0 = "0" :: initKeys :=
  ⟨claim7_ownkeys.1,
   claim7_ownkeys.2.1 (createMock 0 []).1 0 "a" _ rfl,
   claim7_ownkeys.2.2.1 (createMock 0 []).1 0 "0" (JSVal.jnum 7) _ rfl,
   claim7_ownkeys.2.2.2⟩

/-! ### Claim C9 -/

theorem jsElem_last (xs : List JSVal) :
    jsElem (JSVal.jarr xs) (xs.length - 1) = (xs.getLast?).getD JSVal.undefined := by
  simp [jsElem, List.get?_eq_getElem?, List.getLast?_eq_getElem?]

theorem isMock_true_parts (h : Heap) (v : JSVal) (hm : isMock h v = Except.ok true) :
    ∃ c r, jsGetField h (mockField h v) "calls" = Except.ok c ∧ isArray c = true ∧
      jsGetField h (mockField h v) "results" = Except.ok r ∧ isArray r = true := by
  unfold isMock at hm
  by_cases h1 : jsTypeof v = "function"
  · rw [if_pos h1] at hm
    by_cases h2 : jsTypeof (mockField h v) = "object"
    · rw [if_pos h2] at hm
      cases hc : jsGetField h (mockField h v) "calls" with
      | error e =>
        rw [hc] at hm
        dsimp only at hm
        simp at hm
      | ok c =>
        rw [hc] at hm
        dsimp only at hm
        by_cases h3 : isArray c = true
        · rw [if_pos h3] at hm
          cases hr : jsGetField h (mockField h v) "results" with
          | error e =>
            rw [hr] at hm
            simp at hm
          | ok r =>
            rw [hr] at hm
            dsimp only at hm
            refine ⟨c, r, rfl, h3, rfl, ?_⟩
            simpa using hm
        · rw [if_neg h3] at hm
          simp at hm
    · rw [if_neg h2] at hm
      simp at hm
  · rw [if_neg h1] at hm
    simp at hm

/-- Counterexample to claim C9: isGeneratedMock itself can raise.  After
the write m.mock = null (which handler.set stores verbatim), isMock finds
typeof null to be the string object and then reads .calls off null, which
raises a TypeError instead of returning false. -/
theorem claim9_ismock_raises_cex :
    isMock (setProp (createMock 0 []).1 0 "mock" JSVal.jnull) (JSVal.node 0) =
      Except.error (JSVal.jstr "TypeError: Cannot read properties of null") := rfl

/-- Claim C9 as amended: whenever isMock completes without raising (it
can raise, see the counterexample), getCallInfo raises its type-mismatch
error exactly when isMock returned false; and on a generated mock whose
reserved mock binding is intact, getCallInfo returns the summary: the
call count is the invocation count, lastCall is the most recent argument
list or the empty list when no call occurred, and lastResult is the most
recent result entry or the synthetic return-undefined entry. -/
theorem claim9_call_summary :
    (∀ (h : Heap) (v : JSVal) (b : Bool), isMock h v = Except.ok b →
      ((∃ e, getCallInfo h v = Except.error e) ↔ b = false)) ∧
    (∀ (h : Heap) (i : Nat) (n : MockNode), h[i]? = some n →
      lookupProp n.props "mock" = some (JSVal.mockRecord i) →
      getCallInfo h (JSVal.node i) = Except.ok
        { callCount := n.calls.length,
          calls := JSVal.jarr (n.calls.map JSVal.jarr),
          results := JSVal.jarr (n.results.map resultToJS),
          lastCall := match n.calls.getLast? with
            | some c => JSVal.jarr c
            | none => JSVal.jarr [],
          lastResult := match n.results.getLast? with
            | some r => resultToJS r
            | none => JSVal.jobj [("type", JSVal.jstr "return"), ("value", JSVal.undefined)] }) := by
  constructor
  · intro h v b hm
    constructor
    · rintro ⟨e, he⟩
      cases b with
      | true =>
        obtain ⟨c, r, hc, hac, hr, har⟩ := isMock_true_parts h v hm
        unfold getCallInfo at he
        rw [hm] at he
        dsimp only at he
        rw [hc, hr] at he
        cases he
      | false => rfl
    · intro hb
      subst hb
      refine ⟨JSVal.jstr "TypeError: Argument must be a mock function", ?_⟩
      unfold getCallInfo
      rw [hm]
  · intro h i n hget hmock
    have hmf : mockField h (JSVal.node i) = JSVal.mockRecord i := by
      unfold mockField
      dsimp only
      rw [proxyGet_reserved h i n "mock" hget (by decide), hmock]
      rfl
    have hcalls : jsGetField h (JSVal.mockRecord i) "calls" =
        Except.ok (JSVal.jarr (n.calls.map JSVal.jarr)) := by
      unfold jsGetField
      dsimp only
      rw [hget]
      simp
    have hresults : jsGetField h (JSVal.mockRecord i) "results" =
        Except.ok (JSVal.jarr (n.results.map resultToJS)) := by
      unfold jsGetField
      dsimp only
      rw [hget]
      simp
    have hism : isMock h (JSVal.node i) = Except.ok true := by
      simp [isMock, hmf, hcalls, hresults, jsTypeof, isArray]
    have hlast : jsOr (jsElem (JSVal.jarr (n.calls.map JSVal.jarr))
        (jsArrLen (JSVal.jarr (n.calls.map JSVal.jarr)) - 1)) (JSVal.jarr []) =
        (match n.calls.getLast? with
          | some c => JSVal.jarr c
          | none => JSVal.jarr []) := by
      rw [show jsArrLen (JSVal.jarr (n.calls.map JSVal.jarr)) =
        (n.calls.map JSVal.jarr).length from rfl, jsElem_last, List.getLast?_map]
      cases hcl : n.calls.getLast? with
      | none => rfl
      | some c => rfl
    have hlastr : jsOr (jsElem (JSVal.jarr (n.results.map resultToJS))
        (jsArrLen (JSVal.jarr (n.results.map resultToJS)) - 1))
        (JSVal.jobj [("type", JSVal.jstr "return"), ("value", JSVal.undefined)]) =
        (match n.results.getLast? with
          | some r => resultToJS r
          | none => JSVal.jobj [("type", JSVal.jstr "return"), ("value", JSVal.undefined)]) := by
      rw [show jsArrLen (JSVal.jarr (n.results.map resultToJS)) =
        (n.results.map resultToJS).length from rfl, jsElem_last, List.getLast?_map]
      cases hcl : n.results.getLast? with
      | none => rfl
      | some r =>
        dsimp only [Option.map, Option.getD]
        unfold jsOr
        rw [if_pos (by unfold resultToJS jsTruthy; simp)]
    rw [getCallInfo, hism]
    dsimp only
    rw [hmf, hcalls, hresults]
    dsimp only
    rw [hlast, hlastr]
    simp [jsArrLen]

/-- Witness for claim C9: a plain number makes getCallInfo raise, and the
summary of a fresh never-invoked root mock has count 0 with the two
documented fallbacks. -/
theorem claim9_call_summary_witness :
    (∃ e, getCallInfo [] (JSVal.jnum 3) = Except.error e) ∧
    getCallInfo (createMock 0 []).1 (JSVal.node 0) = Except.ok
      { callCount := 0, calls := JSVal.jarr [], results := JSVal.jarr [],
        lastCall := JSVal.jarr [],
        lastResult := JSVal.jobj [("type", JSVal.jstr "return"), ("value", JSVal.undefined)] } :=
  ⟨(claim9_call_summary.1 [] (JSVal.jnum 3) false rfl).mpr rfl,
   claim9_call_summary.2 (createMock 0 []).1 0 _ rfl rfl⟩

/-! ### Claim C10 -/

theorem pureApply_installedBehavior (E : ClosureEnv) (v : JSVal) (args : List JSVal)
    (hv : (∃ fid, v = JSVal.closure fid) ∨ jsTypeof v ≠ "function") :
    pureApply E (installedBehavior v) args = some (defaultOutcome E v args) := by
  rcases hv with ⟨fid, rfl⟩ | hv
  · rfl
  · cases v <;> simp_all [installedBehavior, defaultOutcome, jsTypeof, valueBehavior, pureApply]

theorem proxyGet_unchanged_node_lookup (h : Heap) (id : Nat) (root0 : MockNode)
    (k : String) (i : Nat) (hroot : h[id]? = some root0)
    (hpg : proxyGet h id k = (h, JSVal.node i)) :
    lookupProp root0.props k = some (JSVal.node i) := by
  by_cases hk : k ∈ reservedNames
  · rw [proxyGet_reserved h id root0 k hroot hk] at hpg
    have h2 := congrArg Prod.snd hpg
    dsimp only at h2
    cases hl : lookupProp root0.props k with
    | some w =>
      rw [hl] at h2
      exact congrArg some h2
    | none =>
      rw [hl] at h2
      cases h2
  · cases hl : lookupProp root0.props k with
    | some w =>
      by_cases hu : w.isUndefined = true
      · have hweq : w = JSVal.undefined := by
          cases w <;> simp [JSVal.isUndefined] at hu ⊢
        subst hweq
        rw [proxyGet_stale h id root0 k hroot hk hl] at hpg
        by_cases hd : root0.depth + 1 > MAX_DEPTH
        · rw [createMock_gt _ _ hd] at hpg
          have h2 := congrArg Prod.snd hpg
          cases h2
        · rw [createMock_le _ _ hd] at hpg
          have h1 := congrArg (fun p => List.length (Prod.fst p)) hpg
          dsimp only at h1
          rw [updateNode_length, List.length_append] at h1
          simp at h1
      · rw [proxyGet_cached h id root0 k w hroot hk hl (by simpa using hu)] at hpg
        have h2 := congrArg Prod.snd hpg
        dsimp only at h2
        exact congrArg some h2
    | none =>
      rw [proxyGet_absent h id root0 k hroot hk hl] at hpg
      by_cases hd : root0.depth + 1 > MAX_DEPTH
      · rw [createMock_gt _ _ hd] at hpg
        have h2 := congrArg Prod.snd hpg
        cases h2
      · rw [createMock_le _ _ hd] at hpg
        have h1 := congrArg (fun p => List.length (Prod.fst p)) hpg
        dsimp only at h1
        rw [updateNode_length, List.length_append] at h1
        simp at h1

theorem installDefault_step (h : Heap) (root0 : MockNode) (k : String) (v : JSVal)
    (hroot : h[0]? = some root0) (hd : ¬ (root0.depth + 1 > MAX_DEPTH))
    (hk : k ∉ reservedNames) (hlook : lookupProp root0.props k = none)
    (hv : (∃ fid, v = JSVal.closure fid) ∨ jsTypeof v ≠ "function") :
    ∃ h2, installDefault h 0 k v = Except.ok h2 ∧
      (∀ j, j ≠ 0 → j ≠ h.length → h2[j]? = h[j]?) ∧
      h2[0]? = some { root0 with props := insertProp root0.props k (JSVal.node h.length) } ∧
      h2[h.length]? =
        some { freshNode (root0.depth + 1) h.length with impl := some (installedBehavior v) } ∧
      keyInstalled h2 k v ∧ h2.length = h.length + 1 := by
  have h0lt : 0 < h.length := (List.getElem?_eq_some.mp hroot).1
  have hpg := proxyGet_materialize h 0 root0 k hroot hk hlook hd
  have hstep : installDefault h 0 k v = Except.ok (updateNode
      ((h ++ [freshNode (root0.depth + 1) h.length]).set 0
        { root0 with props := insertProp root0.props k (JSVal.node h.length) }) h.length
      (fun m => { m with impl := some (installedBehavior v) })) := by
    unfold installDefault
    rw [hpg]
    dsimp only
    rcases hv with ⟨fid, rfl⟩ | hvn
    · rw [if_pos ⟨rfl, rfl⟩]
      rfl
    · have hfun : ¬ (jsTypeof (JSVal.node h.length) = "function" ∧ jsTypeof v = "function") :=
        fun hc => hvn hc.2
      rw [if_neg hfun,
        if_pos (show jsTypeof (JSVal.node h.length) = "function" from rfl)]
      unfold mockReturnValue mockImplementation installedBehavior
      rw [if_neg hvn]
  have hfreshP : ((h ++ [freshNode (root0.depth + 1) h.length]).set 0
      { root0 with props := insertProp root0.props k (JSVal.node h.length) })[h.length]? =
      some (freshNode (root0.depth + 1) h.length) := by
    rw [List.getElem?_set_ne (show (0 : Nat) ≠ h.length from by omega),
      List.getElem?_concat_length]
  have hrootP : ((h ++ [freshNode (root0.depth + 1) h.length]).set 0
      { root0 with props := insertProp root0.props k (JSVal.node h.length) })[0]? =
      some { root0 with props := insertProp root0.props k (JSVal.node h.length) } :=
    List.getElem?_set_self (by rw [List.length_append]; omega)
  have hchild := updateNode_get_self _ h.length _
    (fun m => { m with impl := some (installedBehavior v) }) hfreshP
  have hroot2 : (updateNode
      ((h ++ [freshNode (root0.depth + 1) h.length]).set 0
        { root0 with props := insertProp root0.props k (JSVal.node h.length) }) h.length
      (fun m => { m with impl := some (installedBehavior v) }))[0]? =
      some { root0 with props := insertProp root0.props k (JSVal.node h.length) } := by
    rw [updateNode_get_ne _ h.length 0 _ (by omega)]
    exact hrootP
  refine ⟨_, hstep, ?_, hroot2, hchild, ?_, ?_⟩
  · intro j hj0 hjl
    rw [updateNode_get_ne _ h.length j _ hjl,
      List.getElem?_set_ne (fun hc => hj0 hc.symm)]
    by_cases hlt : j < h.length
    · rw [List.getElem?_append, if_pos hlt]
    · rw [List.getElem?_append, if_neg hlt]
      rw [List.getElem?_eq_none (by simp; omega),
        List.getElem?_eq_none (by omega)]
  · refine ⟨h.length, _, h0lt, ?_, hchild, rfl, rfl⟩
    exact proxyGet_cached _ 0 _ k (JSVal.node h.length) hroot2 hk
      (lookupProp_insertProp_self root0.props k (JSVal.node h.length)) rfl
  · rw [updateNode_length, List.length_set, List.length_append]
    rfl

theorem keyInstalled_preserved (h h2 : Heap) (root0 : MockNode) (k k0 : String)
    (v0 : JSVal) (hroot : h[0]? = some root0)
    (hroot2 : h2[0]? =
      some { root0 with props := insertProp root0.props k (JSVal.node h.length) })
    (hpres : ∀ j, j ≠ 0 → j ≠ h.length → h2[j]? = h[j]?)
    (hne : k0 ≠ k) (hki : keyInstalled h k0 v0) :
    keyInstalled h2 k0 v0 := by
  obtain ⟨i, n, hipos, hpg, hget, hq, himpl⟩ := hki
  have hilt : i < h.length := (List.getElem?_eq_some.mp hget).1
  have hlook0 : lookupProp root0.props k0 = some (JSVal.node i) :=
    proxyGet_unchanged_node_lookup h 0 root0 k0 i hroot hpg
  have hlook2 : lookupProp (insertProp root0.props k (JSVal.node h.length)) k0 =
      some (JSVal.node i) := by
    rw [lookupProp_insertProp_ne _ _ _ _ hne]
    exact hlook0
  have hget2 : h2[i]? = some n := by
    rw [hpres i (by omega) (by omega)]
    exact hget
  refine ⟨i, n, hipos, ?_, hget2, hq, himpl⟩
  by_cases hk0 : k0 ∈ reservedNames
  · rw [proxyGet_reserved h2 0 _ k0 hroot2 hk0]
    dsimp only
    rw [hlook2]
    rfl
  · exact proxyGet_cached h2 0 _ k0 (JSVal.node i) hroot2 hk0 hlook2 rfl

theorem installAll (rem : List (String × JSVal)) :
    ∀ (h : Heap) (root0 : MockNode),
    h[0]? = some root0 → root0.depth = 0 →
    (∀ p ∈ rem, p.1 ∉ reservedNames) →
    (∀ p ∈ rem, (∃ fid, p.2 = JSVal.closure fid) ∨ jsTypeof p.2 ≠ "function") →
    (∀ p ∈ rem, lookupProp root0.props p.1 = none) →
    (rem.map Prod.fst).Nodup →
    ∃ hf, List.foldlM (fun hh kv => installDefault hh 0 kv.1 kv.2) h rem = Except.ok hf ∧
      (∀ p ∈ rem, keyInstalled hf p.1 p.2) ∧
      (∀ k0 v0, keyInstalled h k0 v0 → k0 ∉ rem.map Prod.fst → keyInstalled hf k0 v0) := by
  induction rem with
  | nil =>
    intro h root0 hroot hd0 hres hfn hfresh hnd
    exact ⟨h, rfl, by simp, fun k0 v0 hki _ => hki⟩
  | cons p rest ih =>
    obtain ⟨k, v⟩ := p
    intro h root0 hroot hd0 hres hfn hfresh hnd
    have hk : k ∉ reservedNames := hres (k, v) (List.mem_cons_self _ _)
    have hv := hfn (k, v) (List.mem_cons_self _ _)
    have hlook : lookupProp root0.props k = none := hfresh (k, v) (List.mem_cons_self _ _)
    have hd : ¬ (root0.depth + 1 > MAX_DEPTH) := by
      rw [hd0]
      simp [MAX_DEPTH]
    obtain ⟨h2, hstep, hpres, hroot2, hchild, hki, hlen⟩ :=
      installDefault_step h root0 k v hroot hd hk hlook hv
    rw [List.map_cons, List.nodup_cons] at hnd
    obtain ⟨hknotin, hnd2⟩ := hnd
    have hfresh2 : ∀ q ∈ rest,
        lookupProp (insertProp root0.props k (JSVal.node h.length)) q.1 = none := by
      intro q hq
      have hqne : q.1 ≠ k := by
        intro hc
        have hmm := List.mem_map_of_mem Prod.fst hq
        rw [hc] at hmm
        exact hknotin hmm
      rw [lookupProp_insertProp_ne _ _ _ _ hqne]
      exact hfresh q (List.mem_cons_of_mem _ hq)
    obtain ⟨hf, hfold, hinst, hpreserve⟩ := ih h2
      { root0 with props := insertProp root0.props k (JSVal.node h.length) }
      hroot2 hd0
      (fun q hq => hres q (List.mem_cons_of_mem _ hq))
      (fun q hq => hfn q (List.mem_cons_of_mem _ hq))
      hfresh2 hnd2
    refine ⟨hf, ?_, ?_, ?_⟩
    · rw [List.foldlM_cons, hstep]
      exact hfold
    · intro q hq
      rcases List.mem_cons.mp hq with heq | hq2
      · rw [heq]
        exact hpreserve k v hki hknotin
      · exact hinst q hq2
    · intro k0 v0 hki0 hnotin
      rw [List.map_cons, List.mem_cons] at hnotin
      push_neg at hnotin
      exact hpreserve k0 v0
        (keyInstalled_preserved h h2 root0 k k0 v0 hroot hroot2 hpres hnotin.1 hki0)
        hnotin.2

/-- Claim C10: for every defaults map (distinct non-reserved top-level
keys; supplied values either plain functions or non-invocable values),
createMockWithDefaults returns the root mock, and each key is installed
on a materialized child: a function-valued default becomes that child's
default implementation (invoking the child applies it to the arguments),
a plain value becomes a default-return behavior yielding it (the
remaining source branch, overwriting the key with the value, is
unreachable on a fresh root because every materialized child is
invocable); afterwards a one-shot resolved value on the same method
overrides exactly the next invocation and then falls back to the
installed default. -/
theorem claim10_defaults_overlay (E : ClosureEnv) (ds : List (String × JSVal))
    (hres : ∀ p ∈ ds, p.1 ∉ reservedNames)
    (hfn : ∀ p ∈ ds, (∃ fid, p.2 = JSVal.closure fid) ∨ jsTypeof p.2 ≠ "function")
    (hnd : (ds.map Prod.fst).Nodup) :
    ∃ hf, createMockWithDefaults ds = Except.ok (hf, JSVal.node 0) ∧
      ∀ k v, (k, v) ∈ ds →
        ∃ i n, proxyGet hf 0 k = (hf, JSVal.node i) ∧ hf[i]? = some n ∧
          (∀ args, (invoke E hf i args).2 = defaultOutcome E v args) ∧
          (∀ w args1 args2,
            (invoke E (mockResolvedValueOnce hf i w) i args1).2 =
              Except.ok (JSVal.promiseResolved w) ∧
            (invoke E (invoke E (mockResolvedValueOnce hf i w) i args1).1 i args2).2 =
              defaultOutcome E v args2) := by
  obtain ⟨hf, hfold, hinst, hkeep⟩ := installAll ds (createMock 0 []).1 (freshNode 0 0)
    rfl rfl hres hfn (fun p hp => lookupProp_initProps 0 p.1 (hres p hp)) hnd
  refine ⟨hf, ?_, ?_⟩
  · unfold createMockWithDefaults
    have hcm2 : (createMock 0 ([] : Heap)).2 = JSVal.node 0 := rfl
    rw [hcm2]
    dsimp only
    rw [hfold]
    rfl
  · intro k v hkv
    obtain ⟨i, n, hipos, hpg, hget, hq, himpl⟩ := hinst (k, v) hkv
    have hvp := hfn (k, v) hkv
    have hcb : chooseBehavior n = some (installedBehavior v) := by
      unfold chooseBehavior
      rw [hq]
      exact himpl
    refine ⟨i, n, hpg, hget, ?_, ?_⟩
    · intro args
      exact invoke_result E hf i n (installedBehavior v) args _ hget hcb
        (pureApply_installedBehavior E v args hvp)
    · intro w args1 args2
      have honce : (mockResolvedValueOnce hf i w)[i]? =
          some { n with onceQueue := n.onceQueue ++ [Behavior.resolvedConst w] } := by
        unfold mockResolvedValueOnce mockImplementationOnce
        exact updateNode_get_self hf i n _ hget
      have e1 := invoke_spec_once E (mockResolvedValueOnce hf i w) i
        { n with onceQueue := n.onceQueue ++ [Behavior.resolvedConst w] }
        (Behavior.resolvedConst w) [] args1 (Except.ok (JSVal.promiseResolved w))
        honce (by dsimp only; rw [hq]; rfl) rfl
      have hilt : i < (mockResolvedValueOnce hf i w).length := by
        unfold mockResolvedValueOnce mockImplementationOnce
        rw [updateNode_length]
        exact (List.getElem?_eq_some.mp hget).1
      constructor
      · rw [e1]
      · rw [e1]
        dsimp only
        have hget3 : (List.set (mockResolvedValueOnce hf i w) i { n with calls := n.calls ++ [args1], onceQueue := [], results := n.results ++ [toResult (Except.ok (JSVal.promiseResolved w))] })[i]? = some { n with calls := n.calls ++ [args1], onceQueue := [], results := n.results ++ [toResult (Except.ok (JSVal.promiseResolved w))] } :=
          List.getElem?_set_self hilt
        exact invoke_result E _ i _ (installedBehavior v) args2 _ hget3
          (by unfold chooseBehavior; dsimp only; exact himpl)
          (pureApply_installedBehavior E v args2 hvp)

/-- Witness for claim C10 at a concrete defaults map: a plain function
under getUser and the plain value 42 under count. -/
theorem claim10_defaults_overlay_witness :
    ∃ hf, createMockWithDefaults [("getUser", JSVal.closure 0), ("count", JSVal.jnum 42)] =
        Except.ok (hf, JSVal.node 0) ∧
      ∀ k v, (k, v) ∈ [("getUser", JSVal.closure 0), ("count", JSVal.jnum 42)] →
        ∃ i n, proxyGet hf 0 k = (hf, JSVal.node i) ∧ hf[i]? = some n ∧
          (∀ args, (invoke (fun _ args2 => Except.ok (JSVal.jarr args2)) hf i args).2 =
            defaultOutcome (fun _ args2 => Except.ok (JSVal.jarr args2)) v args) ∧
          (∀ w args1 args2,
            (invoke (fun _ args2 => Except.ok (JSVal.jarr args2))
              (mockResolvedValueOnce hf i w) i args1).2 =
              Except.ok (JSVal.promiseResolved w) ∧
            (invoke (fun _ args2 => Except.ok (JSVal.jarr args2))
              (invoke (fun _ args2 => Except.ok (JSVal.jarr args2))
                (mockResolvedValueOnce hf i w) i args1).1 i args2).2 =
              defaultOutcome (fun _ args2 => Except.ok (JSVal.jarr args2)) v args2) :=
  claim10_defaults_overlay (fun _ args2 => Except.ok (JSVal.jarr args2))
    [("getUser", JSVal.closure 0), ("count", JSVal.jnum 42)]
    (by decide)
    (by
      intro p hp
      rcases List.mem_cons.mp hp with heq | hp2
      · rw [heq]
        exact Or.inl ⟨0, rfl⟩
      · rcases List.mem_cons.mp hp2 with heq2 | hnil
        · rw [heq2]
          exact Or.inr (by decide)
        · cases hnil)
    (by decide)
